import Mathlib

/-!
Shallow embedding of the N-body simulation core (method.py, main.py,
database.py) and proofs about its specification.

Numbers are modelled as exact reals.  The mutable Python list of bodies is
modelled as a `List Body`; in-place mutation becomes construction of the
updated list.  Loops `for j, obj_j in enumerate(bodies)` are rendered as
folds/maps over `List.range bodies.length` with `bodies.getD j default`
playing the role of `bodies[j]`.
-/

namespace NBody

/-- One simulated body (class `Object` in method.py / database.py). -/
structure Body where
  name : String
  mass : ℝ
  position : Fin 3 → ℝ
  velocity : Fin 3 → ℝ
  acceleration : Fin 3 → ℝ

/-- The default `Object` of method.py: zero vectors, name "Object", mass 1. -/
instance : Inhabited Body := ⟨⟨"Object", 1, 0, 0, 0⟩⟩

/-- `np.linalg.norm` on a 3-vector: the Euclidean norm. -/
noncomputable def norm3 (v : Fin 3 → ℝ) : ℝ :=
  Real.sqrt (v 0 ^ 2 + v 1 ^ 2 + v 2 ^ 2)

/-- View a plain 3-vector as a point of `EuclideanSpace ℝ (Fin 3)`. -/
noncomputable def toE3 (v : Fin 3 → ℝ) : EuclideanSpace ℝ (Fin 3) :=
  (WithLp.equiv 2 (Fin 3 → ℝ)).symm v

/-- The gravitational constant used by `compute_gravitational_accelerations`
(method.py line 57), in km³ kg⁻¹ s⁻². -/
noncomputable def G : ℝ := 6.67430e-20

open Classical in
/-- The contribution of body `obj_j` to the acceleration of body `obj_i`
(method.py lines 66-72): zero when the separation is zero, otherwise
`G * obj_j.mass * r_vec / r_mag**3`. -/
noncomputable def pair_contribution (obj_i obj_j : Body) : Fin 3 → ℝ :=
  let r_vec := obj_j.position - obj_i.position
  let r_mag := norm3 r_vec
  if r_mag = 0 then 0 else (G * obj_j.mass / r_mag ^ 3) • r_vec

open Classical in
/-- The body of the inner `for j` loop of `compute_gravitational_accelerations`:
skip `i == j`, skip zero separation (`continue`), otherwise add
`G * obj_j.mass * r_vec / r_mag**3` to the accumulator. -/
noncomputable def accStep (bodies : List Body) (obj_i : Body) (i : ℕ)
    (total_acc : Fin 3 → ℝ) (j : ℕ) : Fin 3 → ℝ :=
  if i = j then total_acc
  else
    let obj_j := bodies.getD j default
    let r_vec := obj_j.position - obj_i.position
    let r_mag := norm3 r_vec
    if r_mag = 0 then total_acc
    else total_acc + (G * obj_j.mass / r_mag ^ 3) • r_vec

/-- The inner `for j, obj_j in enumerate(bodies)` loop of
`compute_gravitational_accelerations` (method.py lines 60-72), starting from
`total_acc = np.zeros(3)`. -/
noncomputable def innerAccLoop (bodies : List Body) (obj_i : Body) (i : ℕ) :
    Fin 3 → ℝ :=
  (List.range bodies.length).foldl (accStep bodies obj_i i) 0

/-- method.py `compute_gravitational_accelerations`: for every body `i`,
overwrite its acceleration with the accumulated `total_acc`.  (The Python
loop mutates `obj_i.acceleration` after its inner loop; since the inner loop
reads only positions and masses, the simultaneous map is equivalent.) -/
noncomputable def compute_gravitational_accelerations (bodies : List Body) :
    List Body :=
  (List.range bodies.length).map (fun i =>
    let obj_i := bodies.getD i default
    { obj_i with acceleration := innerAccLoop bodies obj_i i })

/-- The spec's per-pair acceleration term
`G * mass_j * (pos_j - pos_i) / |pos_j - pos_i|^3`. -/
noncomputable def gTerm (bodies : List Body) (i j : ℕ) : Fin 3 → ℝ :=
  (G * (bodies.getD j default).mass /
      norm3 ((bodies.getD j default).position - (bodies.getD i default).position) ^ 3) •
    ((bodies.getD j default).position - (bodies.getD i default).position)

open Classical in
/-- The spec's Force Evaluator contract, stated in its own words: the
acceleration of body `i` is the sum, over every other body `j` whose position
differs from body `i`'s, of `G * mass_j * (pos_j - pos_i) / |pos_j - pos_i|^3`. -/
noncomputable def specAcceleration (bodies : List Body) (i : ℕ) : Fin 3 → ℝ :=
  ∑ j ∈ (Finset.range bodies.length).filter
      (fun j => j ≠ i ∧
        (bodies.getD j default).position ≠ (bodies.getD i default).position),
    gTerm bodies i j

/-- method.py `verlet_integration` step 1: snapshot every acceleration
before any mutation (`old_accelerations = [np.copy(obj.acceleration) ...]`). -/
noncomputable def old_accelerations (bodies : List Body) : List (Fin 3 → ℝ) :=
  bodies.map (fun obj => obj.acceleration)

/-- method.py `verlet_integration` step 2: update every position with
`obj.position += obj.velocity * dt + 0.5 * old_accelerations[i] * dt**2`. -/
noncomputable def position_update (bodies : List Body) (dt : ℝ) : List Body :=
  (List.range bodies.length).map (fun i =>
    let obj := bodies.getD i default
    { obj with position := obj.position + dt • obj.velocity
        + (0.5 * dt ^ 2) • (old_accelerations bodies).getD i 0 })

/-- method.py `verlet_integration` step 4: update every velocity with
`obj.velocity += 0.5 * (old_accelerations[i] + obj.acceleration) * dt`. -/
noncomputable def velocity_update (bodies : List Body)
    (olds : List (Fin 3 → ℝ)) (dt : ℝ) : List Body :=
  (List.range bodies.length).map (fun i =>
    let obj := bodies.getD i default
    { obj with velocity := obj.velocity
        + (0.5 * dt) • (olds.getD i 0 + obj.acceleration) })

/-- method.py `verlet_integration` (lines 76-104): snapshot accelerations,
update all positions, recompute all accelerations from the updated positions,
update all velocities from old and new accelerations. -/
noncomputable def verlet_integration (bodies : List Body) (dt : ℝ) : List Body :=
  velocity_update
    (compute_gravitational_accelerations (position_update bodies dt))
    (old_accelerations bodies) dt

/-- The spec's Integrator position step on one body:
`pos += vel * dt + 0.5 * a_old * dt²`. -/
noncomputable def posVerlet (dt : ℝ) (b : Body) : Body :=
  { b with position := b.position + dt • b.velocity
      + (0.5 * dt ^ 2) • b.acceleration }

/-- The merge of body `j` into body `i` (method.py lines 130-148): body `i`
gets the summed mass, mass-weighted position and velocity, concatenated name
(its acceleration is left unchanged), and body `j` is removed with
`bodies.pop(j)`. -/
noncomputable def mergeStep (bodies : List Body) (i j : ℕ) : List Body :=
  let m1 := (bodies.getD i default).mass
  let m2 := (bodies.getD j default).mass
  let M := m1 + m2
  let new_position := M⁻¹ •
    (m1 • (bodies.getD i default).position + m2 • (bodies.getD j default).position)
  let new_velocity := M⁻¹ •
    (m1 • (bodies.getD i default).velocity + m2 • (bodies.getD j default).velocity)
  let new_name := (bodies.getD i default).name ++ "+" ++ (bodies.getD j default).name
  (bodies.set i { bodies.getD i default with
      position := new_position, velocity := new_velocity,
      mass := M, name := new_name }).eraseIdx j

open Classical in
/-- The nested `while` loops of `check_and_merge_collisions` (method.py lines
123-153), flattened into one tail-recursive state machine on `(bodies, i, j)`:
while `i < len(bodies)`, the inner index `j` scans from `i + 1`; a merge pops
index `j` and deliberately does not advance `j`; otherwise `j` advances; when
the inner scan ends, `i` advances and `j` restarts at the new `i + 1`. -/
noncomputable def mergeLoop (collision_distance : ℝ) (bodies : List Body)
    (i j : ℕ) : List Body :=
  if hi : i < bodies.length then
    if hj : j < bodies.length then
      if norm3 ((bodies.getD i default).position -
          (bodies.getD j default).position) < collision_distance then
        mergeLoop collision_distance (mergeStep bodies i j) i j
      else
        mergeLoop collision_distance bodies i (j + 1)
    else
      mergeLoop collision_distance bodies (i + 1) (i + 2)
  else bodies
termination_by (bodies.length + 1 - i, bodies.length - j)
decreasing_by
  · apply Prod.Lex.left
    have hl : (mergeStep bodies i j).length = bodies.length - 1 := by
      simp only [mergeStep]
      rw [List.length_eraseIdx_of_lt (by simpa using hj)]
      simp
    omega
  · apply Prod.Lex.right
    omega
  · apply Prod.Lex.left
    omega

/-- method.py `check_and_merge_collisions`: start the double scan at
`i = 0`, `j = i + 1 = 1`. -/
noncomputable def check_and_merge_collisions (bodies : List Body)
    (collision_distance : ℝ) : List Body :=
  mergeLoop collision_distance bodies 0 1

/-- The spec's merge of two colliding bodies: summed mass, mass-weighted
position and velocity, names joined by "+" (the survivor keeps its stale
acceleration). -/
noncomputable def merged (bi bj : Body) : Body :=
  { bi with
    position := (bi.mass + bj.mass)⁻¹ •
      (bi.mass • bi.position + bj.mass • bj.position),
    velocity := (bi.mass + bj.mass)⁻¹ •
      (bi.mass • bi.velocity + bj.mass • bj.velocity),
    mass := bi.mass + bj.mass,
    name := bi.name ++ "+" ++ bj.name }

/-- main.py line 72: the stored 3-component position
`[obj.position[0], obj.position[1], obj.position[2]]`. -/
noncomputable def listGet3 (p : Fin 3 → ℝ) : List ℝ := [p 0, p 1, p 2]

/-- Python dict assignment `snapshot[k] = v` on an insertion-ordered map:
if the key is present its value is replaced in place, otherwise the pair is
appended. -/
def dictInsert (snapshot : List (String × List ℝ)) (k : String) (v : List ℝ) :
    List (String × List ℝ) :=
  if snapshot.any (fun p => p.1 == k) then
    snapshot.map (fun p => if p.1 == k then (k, v) else p)
  else snapshot ++ [(k, v)]

/-- main.py lines 70-73: build the snapshot dict mapping each body's name to
its 3-component position. -/
noncomputable def snapshotOf (bodies : List Body) : List (String × List ℝ) :=
  bodies.foldl
    (fun snapshot obj => dictInsert snapshot obj.name (listGet3 obj.position)) []

/-- database.py `Object.__init__` (lines 20-34): store the arguments and
initialize the acceleration to `np.zeros(3)`.  No validation is performed. -/
def Object_init (name : String) (mass : ℝ)
    (position velocity : Fin 3 → ℝ) : Body :=
  { name := name, mass := mass, position := position, velocity := velocity,
    acceleration := 0 }

/-- One attempt of the vector-input check in `get_objects_from_user`
(database.py lines 153-170): a list of floats is accepted exactly when it has
3 components, otherwise the attempt is rejected (and the user re-prompted). -/
def parse3 (xs : List ℝ) : Option (Fin 3 → ℝ) :=
  if xs.length = 3 then some (fun i => xs.getD i 0) else none

open Classical in
/-- The summand of `specAcceleration` extended by zero to all index pairs. -/
noncomputable def accTerm (bodies : List Body) (i j : ℕ) : Fin 3 → ℝ :=
  if j ≠ i ∧ (bodies.getD j default).position ≠ (bodies.getD i default).position
  then gTerm bodies i j else 0

/-- The spec's total momentum `Σ mass_i * velocity_i`. -/
noncomputable def totalMomentum (bodies : List Body) : Fin 3 → ℝ :=
  ∑ i ∈ Finset.range bodies.length,
    (bodies.getD i default).mass • (bodies.getD i default).velocity

/-- A store whose stored accelerations agree with the gravitational
accelerations determined by its positions and masses — the state established
by the driver's priming call (main.py line 49) and re-established by every
integration step. -/
def physical (bodies : List Body) : Prop :=
  ∀ i, i < bodies.length →
    (bodies.getD i default).acceleration = specAcceleration bodies i

/-! Concrete bodies used as witnesses and counterexamples. -/

/-- A body named "A" at the origin, at rest, mass 1. -/
noncomputable def bodyA : Body := ⟨"A", 1, 0, 0, 0⟩

/-- A body named "B" at the origin, at rest, mass 1. -/
noncomputable def bodyB : Body := ⟨"B", 1, 0, 0, 0⟩

/-- A body named "C" at the origin, at rest, mass 1. -/
noncomputable def bodyC : Body := ⟨"C", 1, 0, 0, 0⟩

/-- A second body also named "A", at position (1,1,1), mass 2. -/
noncomputable def bodyA2 : Body := ⟨"A", 2, fun _ => 1, 0, 0⟩

/-- A body at rest at the origin whose stored acceleration field is the
nonzero vector (1,1,1). -/
noncomputable def bodyK : Body := ⟨"K", 1, 0, 0, fun _ => 1⟩

/-! Lemmas about the Euclidean norm `norm3`. -/

lemma toE3_apply (v : Fin 3 → ℝ) (i : Fin 3) : toE3 v i = v i := rfl

lemma norm3_eq_norm (v : Fin 3 → ℝ) : norm3 v = ‖toE3 v‖ := by
  rw [EuclideanSpace.norm_eq]
  simp only [toE3_apply, Real.norm_eq_abs, sq_abs, Fin.sum_univ_three]
  rfl

lemma toE3_add (a b : Fin 3 → ℝ) : toE3 (a + b) = toE3 a + toE3 b := rfl

lemma toE3_smul (c : ℝ) (v : Fin 3 → ℝ) : toE3 (c • v) = c • toE3 v := rfl

lemma toE3_neg (v : Fin 3 → ℝ) : toE3 (-v) = -toE3 v := rfl

lemma toE3_zero : toE3 0 = 0 := rfl

lemma norm3_nonneg (v : Fin 3 → ℝ) : 0 ≤ norm3 v := Real.sqrt_nonneg _

lemma norm3_eq_zero {v : Fin 3 → ℝ} : norm3 v = 0 ↔ v = 0 := by
  rw [norm3_eq_norm, norm_eq_zero]
  constructor
  · intro h
    funext i
    have := congrFun (congrArg (fun (x : EuclideanSpace ℝ (Fin 3)) => (x : Fin 3 → ℝ)) h) i
    simpa [toE3_apply] using this
  · intro h; rw [h, toE3_zero]

lemma norm3_neg (v : Fin 3 → ℝ) : norm3 (-v) = norm3 v := by
  rw [norm3_eq_norm, norm3_eq_norm, toE3_neg, norm_neg]

lemma norm3_sub_comm (a b : Fin 3 → ℝ) : norm3 (a - b) = norm3 (b - a) := by
  rw [← norm3_neg (a - b), neg_sub]

lemma norm3_add_le (a b : Fin 3 → ℝ) : norm3 (a + b) ≤ norm3 a + norm3 b := by
  rw [norm3_eq_norm, norm3_eq_norm, norm3_eq_norm, toE3_add]
  exact norm_add_le _ _

lemma norm3_smul (c : ℝ) (v : Fin 3 → ℝ) : norm3 (c • v) = |c| * norm3 v := by
  rw [norm3_eq_norm, norm3_eq_norm, toE3_smul, norm_smul, Real.norm_eq_abs]

/-! Lemmas about the force evaluator. -/

/-- A fold that only adds terms is the sum of the terms. -/
lemma foldl_eq_add_sum {M : Type*} [AddCommMonoid M] (step : M → ℕ → M)
    (g : ℕ → M) (hstep : ∀ acc j, step acc j = acc + g j) :
    ∀ (n : ℕ) (init : M),
      (List.range n).foldl step init = init + ∑ j ∈ Finset.range n, g j := by
  intro n
  induction n with
  | zero => intro init; simp
  | succ n ih =>
      intro init
      rw [List.range_succ, List.foldl_append, List.foldl_cons, List.foldl_nil,
        ih, hstep, Finset.sum_range_succ, add_assoc]

open Classical in
lemma accStep_eq_add (bodies : List Body) (obj_i : Body) (i : ℕ)
    (acc : Fin 3 → ℝ) (j : ℕ) :
    accStep bodies obj_i i acc j
      = acc + (if i = j then 0
          else pair_contribution obj_i (bodies.getD j default)) := by
  simp only [accStep, pair_contribution]
  by_cases h1 : i = j
  · rw [if_pos h1, if_pos h1, add_zero]
  · rw [if_neg h1, if_neg h1]
    by_cases h2 : norm3 ((bodies.getD j default).position - obj_i.position) = 0
    · rw [if_pos h2, if_pos h2, add_zero]
    · rw [if_neg h2, if_neg h2]

open Classical in
/-- The inner loop computes exactly the spec's sum over the other bodies at
distinct positions. -/
lemma innerAccLoop_eq_spec (bodies : List Body) (i : ℕ) :
    innerAccLoop bodies (bodies.getD i default) i = specAcceleration bodies i := by
  unfold innerAccLoop specAcceleration
  rw [foldl_eq_add_sum _ _ (accStep_eq_add bodies (bodies.getD i default) i),
    zero_add, Finset.sum_filter]
  apply Finset.sum_congr rfl
  intro j hj
  simp only [pair_contribution]
  by_cases h1 : i = j
  · rw [if_pos h1, if_neg (fun hc => hc.1 h1.symm)]
  · have h1' : j ≠ i := fun h => h1 h.symm
    rw [if_neg h1]
    by_cases h2 : (bodies.getD j default).position = (bodies.getD i default).position
    · have hz : norm3 ((bodies.getD j default).position -
          (bodies.getD i default).position) = 0 := by
        rw [norm3_eq_zero, sub_eq_zero]; exact h2
      rw [if_pos hz, if_neg (fun hc => hc.2 h2)]
    · have hz : ¬ norm3 ((bodies.getD j default).position -
          (bodies.getD i default).position) = 0 := by
        rw [norm3_eq_zero, sub_eq_zero]; exact h2
      rw [if_neg hz, if_pos ⟨h1', h2⟩]
      rfl

/-- Element access into the result of the force evaluator. -/
lemma compute_getD (bodies : List Body) (i : ℕ) (h : i < bodies.length) :
    (compute_gravitational_accelerations bodies).getD i default
      = { bodies.getD i default with
          acceleration := innerAccLoop bodies (bodies.getD i default) i } := by
  unfold compute_gravitational_accelerations
  rw [List.getD_eq_getElem?_getD, List.getElem?_map, List.getElem?_range h]
  rfl

lemma compute_length (bodies : List Body) :
    (compute_gravitational_accelerations bodies).length = bodies.length := by
  unfold compute_gravitational_accelerations
  rw [List.length_map, List.length_range]

lemma compute_getD_out (bodies : List Body) (i : ℕ) (h : ¬ i < bodies.length) :
    (compute_gravitational_accelerations bodies).getD i default
      = bodies.getD i default := by
  unfold compute_gravitational_accelerations
  rw [List.getD_eq_getElem?_getD, List.getElem?_map,
    List.getElem?_eq_none (by rw [List.length_range]; omega),
    List.getD_eq_getElem?_getD, List.getElem?_eq_none (by omega)]
  rfl

/-- The force evaluator rewrites only the acceleration field. -/
lemma compute_preserves_fields (bodies : List Body) (i : ℕ) :
    ((compute_gravitational_accelerations bodies).getD i default).name
      = (bodies.getD i default).name ∧
    ((compute_gravitational_accelerations bodies).getD i default).mass
      = (bodies.getD i default).mass ∧
    ((compute_gravitational_accelerations bodies).getD i default).position
      = (bodies.getD i default).position ∧
    ((compute_gravitational_accelerations bodies).getD i default).velocity
      = (bodies.getD i default).velocity := by
  by_cases h : i < bodies.length
  · rw [compute_getD bodies i h]; exact ⟨rfl, rfl, rfl, rfl⟩
  · rw [compute_getD_out bodies i h]; exact ⟨rfl, rfl, rfl, rfl⟩

/-- After the force evaluator runs, each body's acceleration is the spec's sum. -/
lemma compute_acceleration_spec (bodies : List Body) (i : ℕ)
    (h : i < bodies.length) :
    ((compute_gravitational_accelerations bodies).getD i default).acceleration
      = specAcceleration bodies i := by
  rw [compute_getD bodies i h]
  exact innerAccLoop_eq_spec bodies i

/-- A body alone in the store receives the zero acceleration vector. -/
lemma specAcceleration_singleton (b : Body) : specAcceleration [b] 0 = 0 := by
  unfold specAcceleration
  simp only [List.length_singleton]
  rw [Finset.sum_filter, Finset.sum_range_one, if_neg]
  intro hc
  exact hc.1 rfl

/-- Claim C1: after `compute_gravitational_accelerations` runs, each body `i`'s
acceleration equals the sum over every other body `j` at a distinct position of
`G * mass_j * (pos_j - pos_i) / |pos_j - pos_i|^3`, with
`G = 6.67430e-20`; a body with no other bodies in the store gets the zero
vector. -/
theorem C1_force_evaluator_formula (bodies : List Body) (i : ℕ)
    (h : i < bodies.length) :
    G = 6.67430e-20 ∧
    ((compute_gravitational_accelerations bodies).getD i default).acceleration
      = specAcceleration bodies i ∧
    ∀ b : Body,
      ((compute_gravitational_accelerations [b]).getD 0 default).acceleration
        = 0 := by
  refine ⟨rfl, compute_acceleration_spec bodies i h, fun b => ?_⟩
  rw [compute_acceleration_spec [b] 0 (by simp)]
  exact specAcceleration_singleton b

/-- Witness for C1 at the concrete two-body store `[bodyA, bodyA2]`, index 0. -/
theorem C1_force_evaluator_formula_witness :
    (0 < ([bodyA, bodyA2] : List Body).length) ∧
    (G = 6.67430e-20 ∧
     ((compute_gravitational_accelerations [bodyA, bodyA2]).getD 0 default).acceleration
       = specAcceleration [bodyA, bodyA2] 0 ∧
     ∀ b : Body,
       ((compute_gravitational_accelerations [b]).getD 0 default).acceleration
         = 0) :=
  ⟨by simp, C1_force_evaluator_formula [bodyA, bodyA2] 0 (by simp)⟩

/-- Claim C5: the force evaluator is total on every store; a pair of bodies at
identical positions is skipped, contributing nothing, and each body's
acceleration is still the spec's sum over the bodies at distinct positions. -/
theorem C5_zero_distance_safety (bodies : List Body) (i : ℕ)
    (h : i < bodies.length) :
    (∀ obj_i obj_j : Body, obj_j.position = obj_i.position →
        pair_contribution obj_i obj_j = 0) ∧
    ((compute_gravitational_accelerations bodies).getD i default).acceleration
      = specAcceleration bodies i := by
  refine ⟨fun obj_i obj_j hpos => ?_, compute_acceleration_spec bodies i h⟩
  simp only [pair_contribution]
  rw [if_pos]
  rw [norm3_eq_zero, sub_eq_zero]
  exact hpos

/-- Witness for C5 at the concrete store `[bodyA, bodyB]` (both at the
origin), index 0. -/
theorem C5_zero_distance_safety_witness :
    (0 < ([bodyA, bodyB] : List Body).length) ∧
    ((∀ obj_i obj_j : Body, obj_j.position = obj_i.position →
        pair_contribution obj_i obj_j = 0) ∧
     ((compute_gravitational_accelerations [bodyA, bodyB]).getD 0 default).acceleration
       = specAcceleration [bodyA, bodyB] 0) :=
  ⟨by simp, C5_zero_distance_safety [bodyA, bodyB] 0 (by simp)⟩

/-- Claim C10: `compute_gravitational_accelerations` changes only the
acceleration field — the length of the store and every body's name, mass,
position and velocity are unchanged. -/
theorem C10_force_evaluator_frame (bodies : List Body) (i : ℕ) :
    (compute_gravitational_accelerations bodies).length = bodies.length ∧
    ((compute_gravitational_accelerations bodies).getD i default).name
      = (bodies.getD i default).name ∧
    ((compute_gravitational_accelerations bodies).getD i default).mass
      = (bodies.getD i default).mass ∧
    ((compute_gravitational_accelerations bodies).getD i default).position
      = (bodies.getD i default).position ∧
    ((compute_gravitational_accelerations bodies).getD i default).velocity
      = (bodies.getD i default).velocity :=
  ⟨compute_length bodies, compute_preserves_fields bodies i⟩

/-! Lemmas about the integrator. -/

lemma getD_map_body (f : Body → Body) (bodies : List Body) (i : ℕ)
    (h : i < bodies.length) :
    (bodies.map f).getD i default = f (bodies.getD i default) := by
  rw [List.getD_eq_getElem?_getD, List.getElem?_map, List.getElem?_eq_getElem h,
    List.getD_eq_getElem?_getD, List.getElem?_eq_getElem h]
  rfl

lemma old_accelerations_getD (bodies : List Body) (i : ℕ)
    (h : i < bodies.length) :
    (old_accelerations bodies).getD i 0 = (bodies.getD i default).acceleration := by
  unfold old_accelerations
  rw [List.getD_eq_getElem?_getD, List.getElem?_map, List.getElem?_eq_getElem h,
    List.getD_eq_getElem?_getD, List.getElem?_eq_getElem h]
  rfl

lemma position_update_eq_map (bodies : List Body) (dt : ℝ) :
    position_update bodies dt = bodies.map (posVerlet dt) := by
  apply List.ext_getElem?
  intro n
  by_cases h : n < bodies.length
  · unfold position_update
    rw [List.getElem?_map, List.getElem?_range h, List.getElem?_map,
      List.getElem?_eq_getElem h]
    simp only [Option.map_some']
    have hb : bodies[n] = bodies.getD n default := by
      rw [List.getD_eq_getElem?_getD, List.getElem?_eq_getElem h]
      rfl
    rw [hb]
    unfold posVerlet
    rw [old_accelerations_getD bodies n h]
  · unfold position_update
    rw [List.getElem?_map, List.getElem?_eq_none (by rw [List.length_range]; omega),
      List.getElem?_map, List.getElem?_eq_none (by omega)]
    rfl

lemma position_update_length (bodies : List Body) (dt : ℝ) :
    (position_update bodies dt).length = bodies.length := by
  rw [position_update_eq_map, List.length_map]

lemma velocity_update_length (bodies : List Body) (olds : List (Fin 3 → ℝ))
    (dt : ℝ) : (velocity_update bodies olds dt).length = bodies.length := by
  unfold velocity_update
  rw [List.length_map, List.length_range]

lemma velocity_update_getD (bodies : List Body) (olds : List (Fin 3 → ℝ))
    (dt : ℝ) (i : ℕ) (h : i < bodies.length) :
    (velocity_update bodies olds dt).getD i default
      = { bodies.getD i default with
          velocity := (bodies.getD i default).velocity
            + (0.5 * dt) • (olds.getD i 0
                + (bodies.getD i default).acceleration) } := by
  unfold velocity_update
  rw [List.getD_eq_getElem?_getD, List.getElem?_map, List.getElem?_range h]
  rfl

lemma verlet_length (bodies : List Body) (dt : ℝ) :
    (verlet_integration bodies dt).length = bodies.length := by
  unfold verlet_integration
  rw [velocity_update_length, compute_length, position_update_length]

/-- Claim C2: one Verlet step snapshots all accelerations, updates every
position to `pos + vel*dt + 0.5*a_old*dt²`, recomputes all accelerations once
from the fully updated positions, and then updates every velocity to
`vel + 0.5*(a_old + a_new)*dt`. -/
theorem C2_verlet_structure (bodies : List Body) (dt : ℝ) :
    (verlet_integration bodies dt).length = bodies.length ∧
    position_update bodies dt = bodies.map (posVerlet dt) ∧
    (∀ i, i < bodies.length →
      ((verlet_integration bodies dt).getD i default).position
        = (bodies.getD i default).position
          + dt • (bodies.getD i default).velocity
          + (0.5 * dt ^ 2) • (bodies.getD i default).acceleration) ∧
    (∀ i, i < bodies.length →
      ((verlet_integration bodies dt).getD i default).velocity
        = (bodies.getD i default).velocity
          + (0.5 * dt) • ((bodies.getD i default).acceleration
              + specAcceleration (bodies.map (posVerlet dt)) i)) := by
  have hmoved : position_update bodies dt = bodies.map (posVerlet dt) :=
    position_update_eq_map bodies dt
  have hclen : ∀ i, i < bodies.length →
      i < (compute_gravitational_accelerations (position_update bodies dt)).length := by
    intro i h
    rw [compute_length, position_update_length]; exact h
  refine ⟨verlet_length bodies dt, hmoved, ?_, ?_⟩
  · intro i h
    unfold verlet_integration
    rw [velocity_update_getD _ _ _ i (hclen i h)]
    show ((compute_gravitational_accelerations
        (position_update bodies dt)).getD i default).position = _
    rw [(compute_preserves_fields _ i).2.2.1, hmoved,
      getD_map_body _ _ i h]
    unfold posVerlet
    rfl
  · intro i h
    unfold verlet_integration
    rw [velocity_update_getD _ _ _ i (hclen i h)]
    show ((compute_gravitational_accelerations
          (position_update bodies dt)).getD i default).velocity
        + (0.5 * dt) • ((old_accelerations bodies).getD i 0
            + ((compute_gravitational_accelerations
                (position_update bodies dt)).getD i default).acceleration) = _
    rw [(compute_preserves_fields _ i).2.2.2, old_accelerations_getD bodies i h,
      compute_acceleration_spec _ i (by rw [position_update_length]; exact h),
      hmoved, getD_map_body _ _ i h]
    rfl

/-- Witness for C2 at the concrete store `[bodyA, bodyA2]` with `dt = 1`,
instantiating the per-body formulas at index 0. -/
theorem C2_verlet_structure_witness :
    (0 < ([bodyA, bodyA2] : List Body).length) ∧
    ((verlet_integration [bodyA, bodyA2] 1).getD 0 default).position
      = (([bodyA, bodyA2] : List Body).getD 0 default).position
        + (1 : ℝ) • (([bodyA, bodyA2] : List Body).getD 0 default).velocity
        + (0.5 * (1 : ℝ) ^ 2) •
            (([bodyA, bodyA2] : List Body).getD 0 default).acceleration ∧
    ((verlet_integration [bodyA, bodyA2] 1).getD 0 default).velocity
      = (([bodyA, bodyA2] : List Body).getD 0 default).velocity
        + (0.5 * (1 : ℝ)) •
            ((([bodyA, bodyA2] : List Body).getD 0 default).acceleration
              + specAcceleration
                  (([bodyA, bodyA2] : List Body).map (posVerlet 1)) 0) :=
  ⟨by simp,
   (C2_verlet_structure [bodyA, bodyA2] 1).2.2.1 0 (by simp),
   (C2_verlet_structure [bodyA, bodyA2] 1).2.2.2 0 (by simp)⟩

/-! Lemmas about the collision resolver. -/

lemma mergeLoop_stop (cd : ℝ) (bodies : List Body) (i j : ℕ)
    (hi : ¬ i < bodies.length) : mergeLoop cd bodies i j = bodies := by
  rw [mergeLoop.eq_def, dif_neg hi]

lemma mergeLoop_next (cd : ℝ) (bodies : List Body) (i j : ℕ)
    (hi : i < bodies.length) (hj : ¬ j < bodies.length) :
    mergeLoop cd bodies i j = mergeLoop cd bodies (i + 1) (i + 2) := by
  conv_lhs => rw [mergeLoop.eq_def]
  rw [dif_pos hi, dif_neg hj]

lemma mergeLoop_merge (cd : ℝ) (bodies : List Body) (i j : ℕ)
    (hi : i < bodies.length) (hj : j < bodies.length)
    (hd : norm3 ((bodies.getD i default).position -
        (bodies.getD j default).position) < cd) :
    mergeLoop cd bodies i j = mergeLoop cd (mergeStep bodies i j) i j := by
  conv_lhs => rw [mergeLoop.eq_def]
  rw [dif_pos hi, dif_pos hj, if_pos hd]

lemma mergeLoop_skip (cd : ℝ) (bodies : List Body) (i j : ℕ)
    (hi : i < bodies.length) (hj : j < bodies.length)
    (hd : ¬ norm3 ((bodies.getD i default).position -
        (bodies.getD j default).position) < cd) :
    mergeLoop cd bodies i j = mergeLoop cd bodies i (j + 1) := by
  conv_lhs => rw [mergeLoop.eq_def]
  rw [dif_pos hi, dif_pos hj, if_neg hd]

/-- `mergeStep` at indices 0 and 1 replaces the two leading bodies by their
merge. -/
lemma mergeStep_pair (b0 b1 : Body) (rest : List Body) :
    mergeStep (b0 :: b1 :: rest) 0 1 = merged b0 b1 :: rest := rfl

/-- Running the resolver on a singleton store returns it unchanged. -/
lemma mergeLoop_one (cd : ℝ) (b : Body) : mergeLoop cd [b] 0 1 = [b] := by
  rw [mergeLoop_next cd [b] 0 1 (by simp) (by simp),
    mergeLoop_stop cd [b] 1 2 (by simp)]

/-- Claim C3: a two-body store strictly closer than the collision distance
merges into the single body with summed mass, mass-weighted position and
velocity, and concatenated name; at distance equal to or above the threshold
nothing is merged and both bodies are unchanged. -/
theorem C3_two_body_merge (b0 b1 : Body) (cd : ℝ) :
    (norm3 (b0.position - b1.position) < cd →
      (check_and_merge_collisions [b0, b1] cd).length = 1 ∧
      ((check_and_merge_collisions [b0, b1] cd).headD default).mass
        = b0.mass + b1.mass ∧
      ((check_and_merge_collisions [b0, b1] cd).headD default).position
        = (b0.mass + b1.mass)⁻¹ •
            (b0.mass • b0.position + b1.mass • b1.position) ∧
      ((check_and_merge_collisions [b0, b1] cd).headD default).velocity
        = (b0.mass + b1.mass)⁻¹ •
            (b0.mass • b0.velocity + b1.mass • b1.velocity) ∧
      ((check_and_merge_collisions [b0, b1] cd).headD default).name
        = b0.name ++ "+" ++ b1.name) ∧
    (¬ norm3 (b0.position - b1.position) < cd →
      check_and_merge_collisions [b0, b1] cd = [b0, b1]) := by
  constructor
  · intro hd
    have hres : check_and_merge_collisions [b0, b1] cd = [merged b0 b1] := by
      show mergeLoop cd [b0, b1] 0 1 = [merged b0 b1]
      rw [mergeLoop_merge cd [b0, b1] 0 1 (by simp) (by simp) hd,
        mergeStep_pair b0 b1 [], mergeLoop_one]
    rw [hres]
    exact ⟨rfl, rfl, rfl, rfl, rfl⟩
  · intro hd
    show mergeLoop cd [b0, b1] 0 1 = [b0, b1]
    rw [mergeLoop_skip cd [b0, b1] 0 1 (by simp) (by simp) hd,
      mergeLoop_next cd [b0, b1] 0 2 (by simp) (by simp),
      mergeLoop_next cd [b0, b1] 1 2 (by simp) (by simp),
      mergeLoop_stop cd [b0, b1] 2 3 (by simp)]

/-- The mass-weighted centroid of two bodies strictly within `cd` of a third
point stays strictly within `cd` of it. -/
lemma centroid_close {m1 m2 cd : ℝ} (hm1 : 0 < m1) (hm2 : 0 < m2)
    {p0 p1 p2 : Fin 3 → ℝ} (h0 : norm3 (p0 - p2) < cd)
    (h1 : norm3 (p1 - p2) < cd) :
    norm3 ((m1 + m2)⁻¹ • (m1 • p0 + m2 • p1) - p2) < cd := by
  have hM : 0 < m1 + m2 := by linarith
  have hMne : m1 + m2 ≠ 0 := ne_of_gt hM
  have ha : 0 < (m1 + m2)⁻¹ * m1 := by positivity
  have hb : 0 < (m1 + m2)⁻¹ * m2 := by positivity
  have hab : (m1 + m2)⁻¹ * m1 + (m1 + m2)⁻¹ * m2 = 1 := by
    field_simp
  have key : (m1 + m2)⁻¹ • (m1 • p0 + m2 • p1) - p2
      = ((m1 + m2)⁻¹ * m1) • (p0 - p2) + ((m1 + m2)⁻¹ * m2) • (p1 - p2) := by
    have hp2 : ((m1 + m2)⁻¹ * m1) • p2 + ((m1 + m2)⁻¹ * m2) • p2 = p2 := by
      rw [← add_smul, hab, one_smul]
    rw [smul_add, smul_smul, smul_smul, smul_sub, smul_sub,
      ← add_sub_add_comm, hp2]
  rw [key]
  calc norm3 (((m1 + m2)⁻¹ * m1) • (p0 - p2) + ((m1 + m2)⁻¹ * m2) • (p1 - p2))
      ≤ norm3 (((m1 + m2)⁻¹ * m1) • (p0 - p2))
        + norm3 (((m1 + m2)⁻¹ * m2) • (p1 - p2)) := norm3_add_le _ _
    _ = ((m1 + m2)⁻¹ * m1) * norm3 (p0 - p2)
        + ((m1 + m2)⁻¹ * m2) * norm3 (p1 - p2) := by
          rw [norm3_smul, norm3_smul, abs_of_pos ha, abs_of_pos hb]
    _ < ((m1 + m2)⁻¹ * m1) * cd + ((m1 + m2)⁻¹ * m2) * cd := by
          exact add_lt_add (mul_lt_mul_of_pos_left h0 ha)
            (mul_lt_mul_of_pos_left h1 hb)
    _ = cd := by rw [← add_mul, hab, one_mul]

/-- Claim C4: after a merge the inner index is not advanced, so three
mutually colliding bodies collapse, in a single resolution pass, to exactly
one body carrying the sum of the three masses. -/
theorem C4_chain_merge (b0 b1 b2 : Body) (cd : ℝ)
    (hm0 : 0 < b0.mass) (hm1 : 0 < b1.mass) (hm2 : 0 < b2.mass)
    (h01 : norm3 (b0.position - b1.position) < cd)
    (h02 : norm3 (b0.position - b2.position) < cd)
    (h12 : norm3 (b1.position - b2.position) < cd) :
    (check_and_merge_collisions [b0, b1, b2] cd).length = 1 ∧
    ((check_and_merge_collisions [b0, b1, b2] cd).headD default).mass
      = b0.mass + b1.mass + b2.mass := by
  have hd2 : norm3 ((merged b0 b1).position - b2.position) < cd := by
    show norm3 ((b0.mass + b1.mass)⁻¹ •
        (b0.mass • b0.position + b1.mass • b1.position) - b2.position) < cd
    exact centroid_close hm0 hm1 h02 h12
  have hres : check_and_merge_collisions [b0, b1, b2] cd
      = [merged (merged b0 b1) b2] := by
    show mergeLoop cd [b0, b1, b2] 0 1 = [merged (merged b0 b1) b2]
    rw [mergeLoop_merge cd [b0, b1, b2] 0 1 (by simp) (by simp) h01,
      mergeStep_pair b0 b1 [b2],
      mergeLoop_merge cd [merged b0 b1, b2] 0 1 (by simp) (by simp) hd2,
      mergeStep_pair (merged b0 b1) b2 [], mergeLoop_one]
  rw [hres]
  exact ⟨rfl, rfl⟩

/-- Witness for C3: `bodyA` and `bodyB` coincide at the origin, so with
threshold 1 they merge, and with threshold 0 nothing merges. -/
theorem C3_two_body_merge_witness :
    ((check_and_merge_collisions [bodyA, bodyB] 1).length = 1 ∧
     ((check_and_merge_collisions [bodyA, bodyB] 1).headD default).mass
       = bodyA.mass + bodyB.mass ∧
     ((check_and_merge_collisions [bodyA, bodyB] 1).headD default).position
       = (bodyA.mass + bodyB.mass)⁻¹ •
           (bodyA.mass • bodyA.position + bodyB.mass • bodyB.position) ∧
     ((check_and_merge_collisions [bodyA, bodyB] 1).headD default).velocity
       = (bodyA.mass + bodyB.mass)⁻¹ •
           (bodyA.mass • bodyA.velocity + bodyB.mass • bodyB.velocity) ∧
     ((check_and_merge_collisions [bodyA, bodyB] 1).headD default).name
       = bodyA.name ++ "+" ++ bodyB.name) ∧
    check_and_merge_collisions [bodyA, bodyB] 0 = [bodyA, bodyB] :=
  ⟨(C3_two_body_merge bodyA bodyB 1).1
      (by
        have : bodyA.position - bodyB.position = 0 := by
          show (0 : Fin 3 → ℝ) - 0 = 0
          rw [sub_zero]
        rw [this, norm3_eq_zero.mpr rfl]
        norm_num),
   (C3_two_body_merge bodyA bodyB 0).2 (not_lt.mpr (norm3_nonneg _))⟩

/-- Witness for C4: three unit-mass bodies at the origin with threshold 1
collapse to a single body of mass 3. -/
theorem C4_chain_merge_witness :
    (check_and_merge_collisions [bodyA, bodyB, bodyC] 1).length = 1 ∧
    ((check_and_merge_collisions [bodyA, bodyB, bodyC] 1).headD default).mass
      = bodyA.mass + bodyB.mass + bodyC.mass := by
  have hz : ∀ p q : Fin 3 → ℝ, p = 0 → q = 0 → norm3 (p - q) < 1 := by
    intro p q hp hq
    rw [hp, hq, sub_zero, norm3_eq_zero.mpr rfl]
    norm_num
  exact C4_chain_merge bodyA bodyB bodyC 1 (by norm_num [bodyA])
    (by norm_num [bodyB]) (by norm_num [bodyC])
    (hz _ _ rfl rfl) (hz _ _ rfl rfl) (hz _ _ rfl rfl)

/-! Lemmas about the mass-positivity invariant. -/

lemma getD_mem {bodies : List Body} {i : ℕ} (h : i < bodies.length) :
    bodies.getD i default ∈ bodies := by
  rw [List.getD_eq_getElem?_getD, List.getElem?_eq_getElem h]
  exact List.getElem_mem h

lemma mass_pos_getD {bodies : List Body} (h : ∀ b ∈ bodies, 0 < b.mass)
    (i : ℕ) : 0 < (bodies.getD i default).mass := by
  by_cases hi : i < bodies.length
  · exact h _ (getD_mem hi)
  · rw [List.getD_eq_getElem?_getD, List.getElem?_eq_none (by omega)]
    exact one_pos

lemma compute_mass_pos {bodies : List Body} (h : ∀ b ∈ bodies, 0 < b.mass) :
    ∀ b ∈ compute_gravitational_accelerations bodies, 0 < b.mass := by
  intro b hb
  unfold compute_gravitational_accelerations at hb
  obtain ⟨i, _, rfl⟩ := List.mem_map.mp hb
  exact mass_pos_getD h i

lemma position_update_mass_pos {bodies : List Body}
    (h : ∀ b ∈ bodies, 0 < b.mass) (dt : ℝ) :
    ∀ b ∈ position_update bodies dt, 0 < b.mass := by
  intro b hb
  rw [position_update_eq_map] at hb
  obtain ⟨a, ha, rfl⟩ := List.mem_map.mp hb
  exact h a ha

lemma velocity_update_mass_pos {bodies : List Body}
    (h : ∀ b ∈ bodies, 0 < b.mass) (olds : List (Fin 3 → ℝ)) (dt : ℝ) :
    ∀ b ∈ velocity_update bodies olds dt, 0 < b.mass := by
  intro b hb
  unfold velocity_update at hb
  obtain ⟨i, _, rfl⟩ := List.mem_map.mp hb
  exact mass_pos_getD h i

lemma verlet_mass_pos {bodies : List Body} (h : ∀ b ∈ bodies, 0 < b.mass)
    (dt : ℝ) : ∀ b ∈ verlet_integration bodies dt, 0 < b.mass := by
  unfold verlet_integration
  exact velocity_update_mass_pos
    (compute_mass_pos (position_update_mass_pos h dt)) _ dt

lemma mergeStep_mass_pos {bodies : List Body} (h : ∀ b ∈ bodies, 0 < b.mass)
    (i j : ℕ) : ∀ b ∈ mergeStep bodies i j, 0 < b.mass := by
  intro b hb
  unfold mergeStep at hb
  have hb' := List.mem_of_mem_eraseIdx hb
  rcases List.mem_or_eq_of_mem_set hb' with hmem | rfl
  · exact h b hmem
  · have h1 := mass_pos_getD h i
    have h2 := mass_pos_getD h j
    show 0 < (bodies.getD i default).mass + (bodies.getD j default).mass
    linarith

lemma mergeLoop_mass_pos (cd : ℝ) (bodies : List Body) (i j : ℕ)
    (h : ∀ b ∈ bodies, 0 < b.mass) :
    ∀ b ∈ mergeLoop cd bodies i j, 0 < b.mass := by
  induction bodies, i, j using mergeLoop.induct cd with
  | case1 bodies i j hi hj hd ih =>
      rw [mergeLoop_merge cd bodies i j hi hj hd]
      exact ih (mergeStep_mass_pos h i j)
  | case2 bodies i j hi hj hd ih =>
      rw [mergeLoop_skip cd bodies i j hi hj hd]
      exact ih h
  | case3 bodies i j hi hj ih =>
      rw [mergeLoop_next cd bodies i j hi hj]
      exact ih h
  | case4 bodies i j hi =>
      rw [mergeLoop_stop cd bodies i j hi]
      exact h

/-- Claim C9: all three operations preserve strict positivity of every
body's mass. -/
theorem C9_mass_positivity (bodies : List Body)
    (h : ∀ b ∈ bodies, 0 < b.mass) (dt cd : ℝ) :
    (∀ b ∈ compute_gravitational_accelerations bodies, 0 < b.mass) ∧
    (∀ b ∈ verlet_integration bodies dt, 0 < b.mass) ∧
    (∀ b ∈ check_and_merge_collisions bodies cd, 0 < b.mass) :=
  ⟨compute_mass_pos h, verlet_mass_pos h dt,
    mergeLoop_mass_pos cd bodies 0 1 h⟩

/-- Witness for C9 at the store `[bodyA, bodyA2]` with `dt = 1`, `cd = 1`. -/
theorem C9_mass_positivity_witness :
    (∀ b ∈ compute_gravitational_accelerations [bodyA, bodyA2], 0 < b.mass) ∧
    (∀ b ∈ verlet_integration [bodyA, bodyA2] 1, 0 < b.mass) ∧
    (∀ b ∈ check_and_merge_collisions [bodyA, bodyA2] 1, 0 < b.mass) :=
  C9_mass_positivity [bodyA, bodyA2]
    (by
      intro b hb
      rcases List.mem_cons.mp hb with rfl | hb'
      · exact one_pos
      · rcases List.mem_cons.mp hb' with rfl | hb''
        · exact two_pos
        · simp at hb'')
    1 1

/-! Lemmas about snapshots. -/

/-- Folding dict insertions over bodies whose names are fresh for the
accumulator and mutually distinct just appends the association pairs. -/
lemma snapshot_fold_append :
    ∀ (bodies : List Body) (d : List (String × List ℝ)),
      (∀ b ∈ bodies, ∀ p ∈ d, p.1 ≠ b.name) →
      (bodies.map Body.name).Nodup →
      bodies.foldl
          (fun snapshot obj => dictInsert snapshot obj.name (listGet3 obj.position)) d
        = d ++ bodies.map (fun b => (b.name, listGet3 b.position)) := by
  intro bodies
  induction bodies with
  | nil => intro d _ _; simp
  | cons b bs ih =>
      intro d hdisj hnd
      rw [List.foldl_cons]
      have hfree : ¬ (d.any (fun p => p.1 == b.name) = true) := by
        rw [List.any_eq_true]
        rintro ⟨p, hp, hpb⟩
        exact hdisj b (List.mem_cons_self b bs) p hp (by simpa using hpb)
      have hins : dictInsert d b.name (listGet3 b.position)
          = d ++ [(b.name, listGet3 b.position)] := by
        unfold dictInsert
        rw [if_neg hfree]
      rw [hins]
      rw [List.map_cons] at hnd
      have hnd' := List.nodup_cons.mp hnd
      rw [ih (d ++ [(b.name, listGet3 b.position)]) ?_ hnd'.2]
      · rw [List.append_assoc, List.singleton_append, List.map_cons]
      · intro b' hb' p hp
        rcases List.mem_append.mp hp with hpd | hps
        · exact hdisj b' (List.mem_cons_of_mem b hb') p hpd
        · have hpeq : p = (b.name, listGet3 b.position) := by simpa using hps
          rw [hpeq]
          show ¬ b.name = b'.name
          intro hcontra
          exact hnd'.1 (by
            rw [hcontra]
            exact List.mem_map.mpr ⟨b', hb', rfl⟩)

/-- Counterexample for C7: `bodyA` and `bodyA2` share the name "A", so the
snapshot dict collapses them into a single key and its key count is 1, not
the store length 2. -/
theorem C7_counterexample :
    ¬ ((snapshotOf [bodyA, bodyA2]).length
        = ([bodyA, bodyA2] : List Body).length) := by
  have h1 : snapshotOf [bodyA, bodyA2]
      = [("A", listGet3 bodyA2.position)] := by
    unfold snapshotOf
    rw [List.foldl_cons, List.foldl_cons, List.foldl_nil]
    rfl
  rw [h1]
  simp

/-- Claim C7, amended: the snapshot has exactly one entry per distinct name
(so its keys are unique); when the store's names are pairwise distinct the
snapshot is exactly the association list of `(name, position)` pairs in store
order, its keys are the store's names, and its key count equals the store
length.  (With duplicate names, which the store permits, bodies collapse onto
one key, so the key count can be smaller — see the counterexample.) -/
theorem C7_snapshot_keys (bodies : List Body)
    (h : (bodies.map Body.name).Nodup) :
    snapshotOf bodies
      = bodies.map (fun b => (b.name, listGet3 b.position)) ∧
    (snapshotOf bodies).map Prod.fst = bodies.map Body.name ∧
    (snapshotOf bodies).length = bodies.length := by
  have main : snapshotOf bodies
      = bodies.map (fun b => (b.name, listGet3 b.position)) := by
    unfold snapshotOf
    rw [snapshot_fold_append bodies [] (by intro b _ p hp; simp at hp) h]
    rw [List.nil_append]
  refine ⟨main, ?_, ?_⟩
  · rw [main, List.map_map]
    rfl
  · rw [main, List.length_map]

/-- Witness for the amended C7 at the store `[bodyA, bodyB]`, whose names
"A" and "B" are distinct. -/
theorem C7_snapshot_keys_witness :
    ((([bodyA, bodyB] : List Body).map Body.name).Nodup) ∧
    (snapshotOf [bodyA, bodyB]
        = ([bodyA, bodyB] : List Body).map
            (fun b => (b.name, listGet3 b.position)) ∧
     (snapshotOf [bodyA, bodyB]).map Prod.fst
        = ([bodyA, bodyB] : List Body).map Body.name ∧
     (snapshotOf [bodyA, bodyB]).length
        = ([bodyA, bodyB] : List Body).length) :=
  ⟨by decide, C7_snapshot_keys [bodyA, bodyB] (by decide)⟩

/-- Counterexample for C8: constructing a body with the non-positive mass −1
succeeds — `Object.__init__` stores the mass unvalidated and raises nothing,
so there is no `ValidationError` rejection at the boundary. -/
theorem C8_counterexample :
    (Object_init "X" (-1) 0 0).mass = -1 ∧
    ¬ (0 < (Object_init "X" (-1) 0 0).mass) := by
  refine ⟨rfl, ?_⟩
  show ¬ (0 : ℝ) < -1
  norm_num

/-- Claim C8, amended: body construction performs no validation — every
argument, including a non-positive mass, is stored verbatim (with the
acceleration zeroed); the manual-input boundary accepts a position/velocity
attempt exactly when it has 3 components, re-prompting otherwise, so the
simulation loop never sees a malformed vector; no `ValidationError` exists. -/
theorem C8_construction_no_validation (nm : String) (mass : ℝ)
    (position velocity : Fin 3 → ℝ) :
    (Object_init nm mass position velocity).name = nm ∧
    (Object_init nm mass position velocity).mass = mass ∧
    (Object_init nm mass position velocity).position = position ∧
    (Object_init nm mass position velocity).velocity = velocity ∧
    (Object_init nm mass position velocity).acceleration = 0 ∧
    ∀ xs : List ℝ, (parse3 xs).isSome ↔ xs.length = 3 := by
  refine ⟨rfl, rfl, rfl, rfl, rfl, ?_⟩
  intro xs
  unfold parse3
  by_cases h : xs.length = 3
  · rw [if_pos h]
    simp [h]
  · rw [if_neg h]
    simp [h]

/-! Lemmas for momentum conservation. -/

open Classical in
lemma specAcceleration_eq_sum (bodies : List Body) (i : ℕ) :
    specAcceleration bodies i
      = ∑ j ∈ Finset.range bodies.length, accTerm bodies i j := by
  unfold specAcceleration accTerm
  rw [Finset.sum_filter]

/-- Newton's third law at the level of the embedded force terms: the
mass-weighted pair contributions cancel. -/
lemma accTerm_antisymm (bodies : List Body) (i j : ℕ) :
    (bodies.getD i default).mass • accTerm bodies i j
      + (bodies.getD j default).mass • accTerm bodies j i = 0 := by
  unfold accTerm gTerm
  by_cases h1 : j = i
  · subst h1
    rw [if_neg (fun hc => hc.1 rfl)]
    rw [smul_zero, add_zero]
  · by_cases h2 : (bodies.getD j default).position
        = (bodies.getD i default).position
    · rw [if_neg (fun hc => hc.2 h2), if_neg (fun hc => hc.2 (h2.symm))]
      rw [smul_zero, smul_zero, add_zero]
    · rw [if_pos ⟨h1, h2⟩,
        if_pos ⟨fun hc => h1 hc.symm, fun hc => h2 hc.symm⟩]
      rw [norm3_sub_comm (bodies.getD i default).position
        (bodies.getD j default).position]
      rw [show (bodies.getD i default).position
            - (bodies.getD j default).position
          = -((bodies.getD j default).position
            - (bodies.getD i default).position) from (neg_sub _ _).symm]
      rw [smul_neg, smul_neg, smul_smul, smul_smul, ← sub_eq_add_neg,
        ← sub_smul]
      have hc : (bodies.getD i default).mass
            * (G * (bodies.getD j default).mass /
                norm3 ((bodies.getD j default).position
                  - (bodies.getD i default).position) ^ 3)
          - (bodies.getD j default).mass
            * (G * (bodies.getD i default).mass /
                norm3 ((bodies.getD j default).position
                  - (bodies.getD i default).position) ^ 3) = 0 := by
        ring
      rw [hc, zero_smul]

/-- The mass-weighted sum of the spec accelerations vanishes. -/
lemma sum_mass_smul_specAcc (bodies : List Body) :
    ∑ i ∈ Finset.range bodies.length,
      (bodies.getD i default).mass • specAcceleration bodies i = 0 := by
  have expand : ∑ i ∈ Finset.range bodies.length,
        (bodies.getD i default).mass • specAcceleration bodies i
      = ∑ i ∈ Finset.range bodies.length, ∑ j ∈ Finset.range bodies.length,
          (bodies.getD i default).mass • accTerm bodies i j := by
    apply Finset.sum_congr rfl
    intro i _
    rw [specAcceleration_eq_sum, Finset.smul_sum]
  rw [expand]
  set S := ∑ i ∈ Finset.range bodies.length, ∑ j ∈ Finset.range bodies.length,
      (bodies.getD i default).mass • accTerm bodies i j with hS
  have swap : S = ∑ i ∈ Finset.range bodies.length,
      ∑ j ∈ Finset.range bodies.length,
        (bodies.getD j default).mass • accTerm bodies j i := by
    rw [hS]
    exact Finset.sum_comm
  have hdouble : S + S = 0 := by
    nth_rewrite 2 [swap]
    rw [hS, ← Finset.sum_add_distrib]
    apply Finset.sum_eq_zero
    intro i _
    rw [← Finset.sum_add_distrib]
    apply Finset.sum_eq_zero
    intro j _
    exact accTerm_antisymm bodies i j
  have h2S : (2 : ℝ) • S = 0 := by
    rw [two_smul]
    exact hdouble
  rcases smul_eq_zero.mp h2S with h | h
  · norm_num at h
  · exact h

/-- `specAcceleration` depends only on the store's length and on the
positions and masses of its in-range bodies. -/
lemma specAcceleration_congr (b1 b2 : List Body)
    (hlen : b2.length = b1.length)
    (hpos : ∀ k, k < b1.length →
      (b2.getD k default).position = (b1.getD k default).position)
    (hm : ∀ k, k < b1.length →
      (b2.getD k default).mass = (b1.getD k default).mass)
    (i : ℕ) (hi : i < b1.length) :
    specAcceleration b2 i = specAcceleration b1 i := by
  unfold specAcceleration gTerm
  rw [hlen]
  apply Finset.sum_congr
  · apply Finset.filter_congr
    intro j hj
    rw [hpos j (Finset.mem_range.mp hj), hpos i hi]
  · intro j hj
    have hj' := Finset.mem_range.mp (Finset.mem_of_mem_filter j hj)
    rw [hpos j hj', hpos i hi, hm j hj']

lemma position_update_getD_eq (bodies : List Body) (dt : ℝ) (i : ℕ)
    (h : i < bodies.length) :
    (position_update bodies dt).getD i default
      = posVerlet dt (bodies.getD i default) := by
  rw [position_update_eq_map, getD_map_body _ _ i h]

lemma verlet_getD_mass (bodies : List Body) (dt : ℝ) (i : ℕ)
    (h : i < bodies.length) :
    ((verlet_integration bodies dt).getD i default).mass
      = (bodies.getD i default).mass := by
  unfold verlet_integration
  have hC : i < (compute_gravitational_accelerations
      (position_update bodies dt)).length := by
    rw [compute_length, position_update_length]; exact h
  rw [velocity_update_getD _ _ _ i hC]
  show ((compute_gravitational_accelerations
      (position_update bodies dt)).getD i default).mass = _
  rw [(compute_preserves_fields _ i).2.1, position_update_getD_eq bodies dt i h]
  rfl

lemma verlet_getD_position (bodies : List Body) (dt : ℝ) (i : ℕ)
    (h : i < bodies.length) :
    ((verlet_integration bodies dt).getD i default).position
      = (posVerlet dt (bodies.getD i default)).position := by
  unfold verlet_integration
  have hC : i < (compute_gravitational_accelerations
      (position_update bodies dt)).length := by
    rw [compute_length, position_update_length]; exact h
  rw [velocity_update_getD _ _ _ i hC]
  show ((compute_gravitational_accelerations
      (position_update bodies dt)).getD i default).position = _
  rw [(compute_preserves_fields _ i).2.2.1, position_update_getD_eq bodies dt i h]

lemma verlet_getD_velocity (bodies : List Body) (dt : ℝ) (i : ℕ)
    (h : i < bodies.length) :
    ((verlet_integration bodies dt).getD i default).velocity
      = (bodies.getD i default).velocity
        + (0.5 * dt) • ((bodies.getD i default).acceleration
            + specAcceleration (bodies.map (posVerlet dt)) i) := by
  unfold verlet_integration
  have hC : i < (compute_gravitational_accelerations
      (position_update bodies dt)).length := by
    rw [compute_length, position_update_length]; exact h
  rw [velocity_update_getD _ _ _ i hC]
  show ((compute_gravitational_accelerations
        (position_update bodies dt)).getD i default).velocity
      + (0.5 * dt) • ((old_accelerations bodies).getD i 0
          + ((compute_gravitational_accelerations
              (position_update bodies dt)).getD i default).acceleration) = _
  rw [(compute_preserves_fields _ i).2.2.2, old_accelerations_getD bodies i h,
    compute_acceleration_spec _ i (by rw [position_update_length]; exact h),
    position_update_eq_map, getD_map_body _ _ i h]
  rfl

lemma verlet_getD_acceleration (bodies : List Body) (dt : ℝ) (i : ℕ)
    (h : i < bodies.length) :
    ((verlet_integration bodies dt).getD i default).acceleration
      = specAcceleration (bodies.map (posVerlet dt)) i := by
  unfold verlet_integration
  have hC : i < (compute_gravitational_accelerations
      (position_update bodies dt)).length := by
    rw [compute_length, position_update_length]; exact h
  rw [velocity_update_getD _ _ _ i hC]
  show ((compute_gravitational_accelerations
      (position_update bodies dt)).getD i default).acceleration = _
  rw [compute_acceleration_spec _ i (by rw [position_update_length]; exact h),
    position_update_eq_map]

/-- The force evaluator leaves the store in a physical state. -/
lemma physical_compute (bodies : List Body) :
    physical (compute_gravitational_accelerations bodies) := by
  intro i hi
  rw [compute_length] at hi
  rw [compute_acceleration_spec bodies i hi]
  exact (specAcceleration_congr bodies
    (compute_gravitational_accelerations bodies) (compute_length bodies)
    (fun k _ => (compute_preserves_fields bodies k).2.2.1)
    (fun k _ => (compute_preserves_fields bodies k).2.1) i hi).symm

/-- A Verlet step leaves the store in a physical state (whatever the stored
accelerations were on entry). -/
lemma physical_verlet (bodies : List Body) (dt : ℝ) :
    physical (verlet_integration bodies dt) := by
  intro i hi
  rw [verlet_length] at hi
  rw [verlet_getD_acceleration bodies dt i hi]
  have hlen : (verlet_integration bodies dt).length
      = (bodies.map (posVerlet dt)).length := by
    rw [List.length_map, verlet_length]
  have hpos : ∀ k, k < (bodies.map (posVerlet dt)).length →
      ((verlet_integration bodies dt).getD k default).position
        = ((bodies.map (posVerlet dt)).getD k default).position := by
    intro k hk
    rw [List.length_map] at hk
    rw [getD_map_body _ _ k hk, verlet_getD_position bodies dt k hk]
  have hm : ∀ k, k < (bodies.map (posVerlet dt)).length →
      ((verlet_integration bodies dt).getD k default).mass
        = ((bodies.map (posVerlet dt)).getD k default).mass := by
    intro k hk
    rw [List.length_map] at hk
    rw [getD_map_body _ _ k hk, verlet_getD_mass bodies dt k hk]
    rfl
  exact (specAcceleration_congr (bodies.map (posVerlet dt))
    (verlet_integration bodies dt) hlen hpos hm i
    (by rw [List.length_map]; exact hi)).symm

/-- A single Verlet step on a physical store preserves total momentum. -/
lemma totalMomentum_verlet (bodies : List Body) (dt : ℝ)
    (hphys : physical bodies) :
    totalMomentum (verlet_integration bodies dt) = totalMomentum bodies := by
  unfold totalMomentum
  rw [verlet_length]
  have hstep : ∀ i ∈ Finset.range bodies.length,
      ((verlet_integration bodies dt).getD i default).mass
        • ((verlet_integration bodies dt).getD i default).velocity
      = (bodies.getD i default).mass • (bodies.getD i default).velocity
        + (0.5 * dt) • ((bodies.getD i default).mass
            • specAcceleration bodies i)
        + (0.5 * dt) • ((bodies.getD i default).mass
            • specAcceleration (bodies.map (posVerlet dt)) i) := by
    intro i hi
    have h := Finset.mem_range.mp hi
    rw [verlet_getD_mass bodies dt i h, verlet_getD_velocity bodies dt i h,
      hphys i h, smul_add,
      smul_comm ((bodies.getD i default).mass) (0.5 * dt),
      smul_add ((bodies.getD i default).mass),
      smul_add (0.5 * dt), ← add_assoc]
  rw [Finset.sum_congr rfl hstep, Finset.sum_add_distrib,
    Finset.sum_add_distrib, ← Finset.smul_sum, ← Finset.smul_sum,
    sum_mass_smul_specAcc bodies]
  have hB : ∑ i ∈ Finset.range bodies.length,
      (bodies.getD i default).mass
        • specAcceleration (bodies.map (posVerlet dt)) i
      = ∑ i ∈ Finset.range (bodies.map (posVerlet dt)).length,
          ((bodies.map (posVerlet dt)).getD i default).mass
            • specAcceleration (bodies.map (posVerlet dt)) i := by
    rw [List.length_map]
    apply Finset.sum_congr rfl
    intro i hi
    rw [getD_map_body _ _ i (Finset.mem_range.mp hi)]
    rfl
  rw [hB, sum_mass_smul_specAcc (bodies.map (posVerlet dt)),
    smul_zero, add_zero, add_zero]

/-- Counterexample for C6: for the single body `bodyK`, whose stored
acceleration (1,1,1) is not the gravitational acceleration of its position
(which is 0 for a lone body), one `verlet_integration` step changes the total
momentum from 0 to 0.5·(1,1,1): the claim is false for arbitrary stores — it
needs the driver's priming call. -/
theorem C6_counterexample :
    ¬ (totalMomentum (verlet_integration [bodyK] 1) = totalMomentum [bodyK]) := by
  have hmom0 : totalMomentum [bodyK] = 0 := by
    unfold totalMomentum
    rw [List.length_singleton, Finset.sum_range_one]
    show (1 : ℝ) • (0 : Fin 3 → ℝ) = 0
    rw [smul_zero]
  have hvel : ((verlet_integration [bodyK] 1).getD 0 default).velocity
      = (0.5 : ℝ) • (fun _ => (1 : ℝ)) := by
    rw [verlet_getD_velocity [bodyK] 1 0 (by simp)]
    rw [show ([bodyK].map (posVerlet 1)) = [posVerlet 1 bodyK] from rfl,
      specAcceleration_singleton]
    show (0 : Fin 3 → ℝ) + (0.5 * 1 : ℝ) • ((fun _ => (1 : ℝ)) + 0) = _
    rw [add_zero, zero_add, mul_one]
  have hmass : ((verlet_integration [bodyK] 1).getD 0 default).mass = 1 := by
    rw [verlet_getD_mass [bodyK] 1 0 (by simp)]
    rfl
  have hmom1 : totalMomentum (verlet_integration [bodyK] 1)
      = (0.5 : ℝ) • (fun _ => (1 : ℝ)) := by
    unfold totalMomentum
    rw [verlet_length, List.length_singleton, Finset.sum_range_one,
      hmass, hvel, one_smul]
  intro hcontra
  rw [hmom1, hmom0] at hcontra
  have h0 := congrFun hcontra 0
  rw [Pi.smul_apply, smul_eq_mul, mul_one] at h0
  have : (0.5 : ℝ) ≠ 0 := by norm_num
  exact this (by simpa using h0)

/-- Claim C6, amended: for a store primed by the driver's initial
`compute_gravitational_accelerations` call (so the stored accelerations are
the gravitational ones for the current positions), total momentum
`Σ mass_i • velocity_i` is invariant under any number of
`verlet_integration` steps, under exact arithmetic, because the pairwise
force terms cancel in the mass-weighted sum.  (An unprimed store can change
momentum on the first step — see the counterexample.) -/
theorem C6_momentum_conservation (bodies : List Body) (dt : ℝ) (n : ℕ) :
    totalMomentum ((fun bs => verlet_integration bs dt)^[n]
        (compute_gravitational_accelerations bodies))
      = totalMomentum (compute_gravitational_accelerations bodies) := by
  induction n with
  | zero => rfl
  | succ n ih =>
      rw [Function.iterate_succ_apply']
      have hphys : physical ((fun bs => verlet_integration bs dt)^[n]
          (compute_gravitational_accelerations bodies)) := by
        cases n with
        | zero => exact physical_compute bodies
        | succ m =>
            rw [Function.iterate_succ_apply']
            exact physical_verlet _ dt
      have hstep : totalMomentum (verlet_integration
            ((fun bs => verlet_integration bs dt)^[n]
              (compute_gravitational_accelerations bodies)) dt)
          = totalMomentum ((fun bs => verlet_integration bs dt)^[n]
              (compute_gravitational_accelerations bodies)) :=
        totalMomentum_verlet _ dt hphys
      rw [hstep]
      exact ih

end NBody
